import Mathlib

/-!
Verification of the `gl_typed_enum_generator` repository (`src/struct_gen.rs`).

The repository is a source-code generator: it walks an in-memory `Registry`
of an OpenGL-style API (enums, commands, aliases, groups) and emits Rust
binding text.  We shallowly embed:

* the registry data model (`Registry`, `Enum`, `Cmd`, `Binding`, `Group`),
  mirroring the `gl_generator` model the code consumes;
* every `write_*` emitter of `struct_gen.rs` as a function producing the
  list of chunks written by its `writeln!` calls, in emission order (the
  byte stream is the concatenation of the chunks, each followed by a
  newline);
* the runtime semantics of the *generated* code where the spec talks about
  it: the `do_metaloadfn` symbol-resolution routine, the `FnPtr` store and
  its panicking sentinel, and the generated `Debug` implementation.

External collaborators from the `gl_generator` crate (`gen_types`,
`gen_enum_item`, `gen_struct_name`, `gen_symbol_name`) are out of scope per
the spec and are passed in as a `Generators` record of pure functions.

The per-group `HashSet` the emitter iterates for the `Debug` match arms has
no canonical iteration order in Rust (fresh random seed per set); the
embedding therefore takes the iteration order as an explicit parameter
`setOrder`, constrained to be a permutation of the insertion set.
-/

namespace GlGen

/-- One named constant of the registry (`gl_generator::Enum`): an identifier
and its raw value (the numeric value of the emitted flat constant). -/
structure GlEnum where
  ident : String
  value : Nat
  deriving DecidableEq, Repr

/-- One parameter or prototype binding (`gl_generator::Binding`): identifier,
raw Rust type, and optional group reference. -/
structure Binding where
  ident : String
  ty : String
  group : Option String
  deriving DecidableEq, Repr

/-- One command (`gl_generator::Cmd`): prototype binding (identifier and
return type) and ordered parameter list. -/
structure Cmd where
  proto : Binding
  params : List Binding
  deriving DecidableEq, Repr

/-- One group (`gl_generator::Group`): the wrapper type's identifier, the
optional flavor tag (`enums_type`, e.g. `some "bitmask"`), and the declared
ordered member list. -/
structure Group where
  ident : String
  enums_type : Option String
  enums : List String
  deriving DecidableEq, Repr

/-- The registry (`gl_generator::Registry`): API identity, ordered enums and
commands, the alias map (command identifier to ordered fallback list) and the
group map (name to group), both modelled as association lists in the map's
iteration order (the Rust maps are `BTreeMap`s). -/
structure Registry where
  api : String
  enums : List GlEnum
  cmds : List Cmd
  aliases : List (String × List String)
  groups : List (String × Group)
  deriving DecidableEq, Repr

/-- Map lookup on an association list, modelling `BTreeMap::get`. -/
def lookup {α : Type} (m : List (String × α)) (k : String) : Option α :=
  (m.find? (fun p => p.fst == k)).map Prod.snd

/-- The external collaborator functions the core calls on the
`gl_generator::generators` module.  All are pure; the core treats them as
opaque text producers. -/
structure Generators where
  gen_types : String → List String
  gen_enum_item : GlEnum → String → List String
  gen_struct_name : String → String
  gen_symbol_name : String → String → String

/-- The type token computed per binding by `gen_parameters`
(src/struct_gen.rs lines 385-388): if the binding declares a group reference
and that group exists in the registry, `enums::<group ident>`, otherwise the
binding's raw type. -/
def param_ty (registry : Registry) (binding : Binding) : String :=
  ((binding.group.bind fun group =>
      (lookup registry.groups group).map fun group => "enums::" ++ group.ident)).getD
    binding.ty

/-- The per-binding closure body of `gen_parameters` (src/struct_gen.rs
lines 384-399).  `none` models the `panic!()` arm reached when both flags
are false. -/
def gen_binding (registry : Registry) (with_idents with_types : Bool)
    (binding : Binding) : Option String :=
  let ty := param_ty registry binding
  if with_idents && with_types then some (binding.ident ++ ": " ++ ty)
  else if with_types then some ty
  else if with_idents then some binding.ident
  else none

/-- The `map`/`collect` of `gen_parameters` over the parameter list; a
`none` from any element models the panic aborting the whole call. -/
def gen_params_list (registry : Registry) (with_idents with_types : Bool) :
    List Binding → Option (List String)
  | [] => some []
  | b :: rest =>
    match gen_binding registry with_idents with_types b,
          gen_params_list registry with_idents with_types rest with
    | some s, some l => some (s :: l)
    | _, _ => none

/-- Embedding of `gen_parameters` (src/struct_gen.rs lines 381-402): renders one string
per parameter of `cmd`; `none` models a panic. -/
def gen_parameters (cmd : Cmd) (registry : Registry)
    (with_idents with_types : Bool) : Option (List String) :=
  gen_params_list registry with_idents with_types cmd.params

/-!  Runtime semantics of the generated loader.

The generated `load_with` contains (as emitted text, src/struct_gen.rs
lines 209-222) the resolution routine

    fn do_metaloadfn(loadfn, symbol, symbols) -> *const c_void {
        let mut ptr = loadfn(symbol);
        if ptr.is_null() {
            for &sym in symbols {
                ptr = loadfn(sym);
                if !ptr.is_null() { break; }
            }
        }
        ptr
    }

We embed the externally supplied resolver `loadfn` as
`String → Option Nat` (`none` models a null pointer) and instrument the
routine with a ghost log: the second component records, in order, every
symbol name passed to `loadfn`.  The first component is the routine's
actual return value. -/

/-- The fallback loop of `do_metaloadfn` (entered only when the primary
name resolved to null): walks `symbols` in order, overwriting `ptr` with
each call's result and breaking at the first non-null one. -/
def metaload_fallbacks (loadfn : String → Option Nat) :
    List String → Option Nat × List String
  | [] => (none, [])
  | sym :: rest =>
    match loadfn sym with
    | some p => (some p, [sym])
    | none =>
      let r := metaload_fallbacks loadfn rest
      (r.fst, sym :: r.snd)

/-- Embedding of `do_metaloadfn` (generated text, src/struct_gen.rs lines 209-222):
tries the primary `symbol`; only if that is null, runs the fallback loop.
Returns the resulting pointer together with the ghost log of resolver
calls. -/
def do_metaloadfn (loadfn : String → Option Nat) (symbol : String)
    (symbols : List String) : Option Nat × List String :=
  match loadfn symbol with
  | some p => (some p, [symbol])
  | none =>
    let r := metaload_fallbacks loadfn symbols
    (r.fst, symbol :: r.snd)

/-- The address stored in a generated `FnPtr`: either the sentinel
`missing_fn_panic` function or a real resolved address. -/
inductive FnAddr where
  | missing_fn_panic
  | addr (a : Nat)
  deriving DecidableEq, Repr

/-- The generated `FnPtr` store (generated text, src/struct_gen.rs lines
100-105): the function pointer and the load-success flag.  The generated
`is_loaded()` method returns exactly the `is_loaded` field. -/
structure FnPtr where
  f : FnAddr
  is_loaded : Bool
  deriving DecidableEq, Repr

/-- Embedding of `FnPtr::new` (generated text, src/struct_gen.rs lines 109-118): a null
load attempt stores the panicking sentinel with `is_loaded = false`; a
non-null one stores the address with `is_loaded = true`. -/
def FnPtr.new (ptr : Option Nat) : FnPtr :=
  match ptr with
  | none => { f := FnAddr.missing_fn_panic, is_loaded := false }
  | some p => { f := FnAddr.addr p, is_loaded := true }

/-- Invoking a generated wrapper method transmutes `self.ptrs.<name>.f` and
calls it.  If the stored address is the sentinel, the call runs
`missing_fn_panic`, which panics with `"{api} function was not loaded"`
(generated text, src/struct_gen.rs lines 142-145); otherwise the call
reaches the real address.  `Except.error` models the fatal panic. -/
def invoke_fnptr (api : String) (fp : FnPtr) : Except String Nat :=
  match fp.f with
  | FnAddr.missing_fn_panic => Except.error (api ++ " function was not loaded")
  | FnAddr.addr a => Except.ok a

/-- The fallback symbol list the generated loader passes for a command
(src/struct_gen.rs lines 242-249): the alias entry's names run through
`gen_symbol_name`, or the empty list when the command has no alias entry. -/
def cmd_fallback_symbols (g : Generators) (registry : Registry) (cmd : Cmd) :
    List String :=
  ((lookup registry.aliases cmd.proto.ident).getD []).map
    (g.gen_symbol_name registry.api)

/-- Runtime semantics of the generated `load_with`: one table entry per
command, in declaration order, each built by
`FnPtr::new(metaloadfn(symbol, fallbacks))` (src/struct_gen.rs lines
236-251). -/
def load_with (g : Generators) (registry : Registry)
    (loadfn : String → Option Nat) : List (String × FnPtr) :=
  registry.cmds.map fun cmd =>
    (cmd.proto.ident,
      FnPtr.new (do_metaloadfn loadfn
        (g.gen_symbol_name registry.api cmd.proto.ident)
        (cmd_fallback_symbols g registry cmd)).fst)

/-- Modelled from the spec (the claim's own wording, for comparison with
the code): resolution "attempts the primary symbol name first and, only if
it resolves to null, tries each fallback name in declared order, stopping
at the first non-null result".  Applied to the whole sequence
`primary :: fallbacks`, the queried names are the prefix up to and
including the first success, or the whole sequence when every name
fails. -/
def spec_resolution_queries (loadfn : String → Option Nat) :
    List String → List String
  | [] => []
  | n :: rest =>
    if (loadfn n).isSome then [n] else n :: spec_resolution_queries loadfn rest

/-- A resolver that fails the primary name and the first fallback and
succeeds (with address 42) on the second fallback. -/
def loadf1 : String → Option Nat :=
  fun n => if n = "glFooARB" then some 42 else none

/-!  The enum-group emitter (`write_enum_groups`, src/struct_gen.rs lines
287-378). -/

/-- Concatenation of the chunk lists produced by a loop body over a list
(the `for` loops of the emitter). -/
def concat_map {α : Type} (f : α → List String) : List α → List String
  | [] => []
  | x :: xs => f x ++ concat_map f xs

/-- Modelled from the spec's wording for the Group Partitioner ("the member
list deduplicated by first occurrence"): keeps the first occurrence of each
identifier not already in `seen`, preserving order. -/
def dedup_first_from (seen : List String) : List String → List String
  | [] => []
  | n :: rest =>
    if n ∈ seen then dedup_first_from seen rest
    else n :: dedup_first_from (n :: seen) rest

/-- First-occurrence deduplication of a whole list. -/
def dedup_first (l : List String) : List String :=
  dedup_first_from [] l

/-- The contents of the `enums` hash set built from the registry
(src/struct_gen.rs lines 304-308): all enum identifiers. -/
def enum_idents (registry : Registry) : List String :=
  registry.enums.map GlEnum.ident

/-- The constant line emitted per kept group member (src/struct_gen.rs
line 338). -/
def const_line (group_name enum_name : String) : String :=
  "    pub const " ++ (enum_name ++ (": " ++ (group_name ++ (" = "
    ++ (group_name ++ ("(super::" ++ (enum_name ++ ");")))))))

/-- The `Empty` constant line emitted for bitmask groups (src/struct_gen.rs
line 344). -/
def empty_const_line (group_name : String) : String :=
  "    pub const Empty: " ++ (group_name ++ (" = " ++ (group_name ++ "(0);")))

/-- The unconditional trait-hook invocation line (src/struct_gen.rs
line 366). -/
def impl_traits_line (group_name : String) : String :=
  "impl_enum_traits!(" ++ (group_name ++ ");")

/-- The bitmask trait-hook invocation line (src/struct_gen.rs line 370). -/
def impl_bitmask_traits_line (group_name : String) : String :=
  "impl_enum_bitmask_traits!(" ++ (group_name ++ ");")

/-- One `Debug` match arm line (src/struct_gen.rs line 356). -/
def debug_arm_line (group_name enum_name : String) : String :=
  "            " ++ (group_name ++ ("::" ++ (enum_name ++ (" => write!(fmt, \""
    ++ (group_name ++ ("(" ++ (enum_name ++ ")\"),")))))))

/-- The default `Debug` match arm line (src/struct_gen.rs line 360). -/
def debug_default_line (group_name : String) : String :=
  "            _ => write!(fmt, \"" ++ (group_name ++ "(\x7b\x7d)\", self.0),")

/-- The member-constant loop of `write_enum_groups` (src/struct_gen.rs
lines 333-341): `seen` is the `group_enums` hash set so far (every visited
name is inserted); a constant line is emitted when the name was newly
inserted (`unique`) and is present in the registry's enum set. -/
def group_const_chunks (enumSet : List String) (group_name : String) :
    List String → List String → List String
  | _, [] => []
  | seen, n :: rest =>
    let tail := group_const_chunks enumSet group_name (n :: seen) rest
    if n ∉ seen ∧ n ∈ enumSet then const_line group_name n :: tail
    else tail

/-- The per-group emission of `write_enum_groups` (src/struct_gen.rs lines
319-373), as the list of chunks written, in order.  `setOrder` supplies the
iteration order of the `group_enums` hash set used for the `Debug` match
arms (line 354); its argument is the set's contents (the distinct member
names, here listed in insertion order). -/
def group_chunks (enumSet : List String) (setOrder : List String → List String)
    (group : Group) : List String :=
  let enum_type :=
    if group.ident == "Boolean" then "types::GLboolean" else "types::GLenum"
  ["#[repr(transparent)]",
   "#[derive(Copy, Clone, PartialEq, Eq, Hash)]",
   "pub struct " ++ (group.ident ++ ("(pub " ++ (enum_type ++ ");"))),
   "",
   "impl " ++ (group.ident ++ " \x7b")]
  ++ group_const_chunks enumSet group.ident [] group.enums
  ++ (if group.enums_type = some "bitmask" then [empty_const_line group.ident]
      else [])
  ++ ["\x7d", "",
      "impl ::std::fmt::Debug for " ++ (group.ident ++ " \x7b"),
      "    fn fmt(&self, fmt: &mut ::std::fmt::Formatter) -> ::std::fmt::Result \x7b",
      "        match *self \x7b"]
  ++ ((setOrder (dedup_first group.enums)).filter
        (fun n => decide (n ∈ enumSet))).map (debug_arm_line group.ident)
  ++ [debug_default_line group.ident,
      "        \x7d",
      "    \x7d",
      "\x7d",
      "",
      impl_traits_line group.ident,
      ""]
  ++ (if group.enums_type = some "bitmask" then
        [impl_bitmask_traits_line group.ident, ""]
      else [])

/-- Embedding of `write_enum_groups` (src/struct_gen.rs lines 287-378): the two hook
macro definitions, the `enums` module header, the per-group emission in
group-map iteration order, and the closing brace. -/
def write_enum_groups (registry : Registry)
    (setOrder : List String → List String) : List String :=
  ["macro_rules! impl_enum_traits \x7b\n        ($Name:ident) => \x7b\n\n        \x7d\n    \x7d",
   "",
   "macro_rules! impl_enum_bitmask_traits \x7b\n        ($Name:ident) => \x7b\n            \n        \x7d\n    \x7d",
   "",
   "pub mod enums \x7b",
   "#![allow(non_camel_case_types, non_upper_case_globals, non_snake_case, dead_code, unreachable_patterns)]",
   "",
   "use super::types;",
   ""]
  ++ concat_map (fun p => group_chunks (enum_idents registry) setOrder p.snd)
      registry.groups
  ++ ["\x7d"]

/-!  Runtime semantics of the generated `Debug` implementation. -/

/-- The raw value of the flat constant `super::<n>` referenced by the
generated group constants: the value of the registry enum with that
identifier (enum identifiers are unique by the registry invariant). -/
def enum_value (registry : Registry) (n : String) : Nat :=
  ((registry.enums.find? (fun e => e.ident == n)).map GlEnum.value).getD 0

/-- The match arms of the generated `Debug` implementation for a group, in
emission order (src/struct_gen.rs lines 354-359): the set-iteration order
of the distinct member names, filtered to names present in the enum set,
each paired with its constant's raw value. -/
def debug_arms (registry : Registry) (iter : List String) :
    List (String × Nat) :=
  (iter.filter (fun n => decide (n ∈ enum_idents registry))).map
    (fun n => (n, enum_value registry n))

/-- Runtime semantics of the generated `fmt` body (src/struct_gen.rs lines
351-363): the emitted `match *self` tries the constant patterns in arm
order — the first arm whose wrapped value equals the instance wins — and
otherwise falls through to the `_` arm, which renders the raw value. -/
def generated_debug_fmt (group_name : String) (arms : List (String × Nat))
    (v : Nat) : String :=
  match arms.find? (fun a => a.snd == v) with
  | some a => group_name ++ "(" ++ a.fst ++ ")"
  | none => group_name ++ "(" ++ toString v ++ ")"

/-- A concrete registry with constants `A = 1`, `B = 2` and a plain-flavored
group `Group` containing both. -/
def R5 : Registry :=
  { api := "gl"
    enums := [{ ident := "A", value := 1 }, { ident := "B", value := 2 }]
    cmds := []
    aliases := []
    groups := [("Group", { ident := "Group", enums_type := none,
                           enums := ["A", "B"] })] }

/-!  The remaining emitters and the facade. -/

/-- Embedding of `write_header` (src/struct_gen.rs lines 42-56): one chunk, the
`__gl_imports` module. -/
def write_header : List String :=
  ["\n        mod __gl_imports \x7b\n            pub use std::mem;\n            pub use std::marker::Send;\n            pub use std::os::raw;\n        \x7d\n    "]

/-- Embedding of `write_type_aliases` (src/struct_gen.rs lines 61-76): the `types`
module header, the collaborator's type aliases, and the closing brace. -/
def write_type_aliases (g : Generators) (registry : Registry) : List String :=
  ["\n        pub mod types \x7b\n            #![allow(non_camel_case_types, non_snake_case, dead_code, missing_copy_implementations)]\n    "]
    ++ g.gen_types registry.api
    ++ ["\x7d"]

/-- Embedding of `write_enums` (src/struct_gen.rs lines 79-88): one collaborator call
per registry enum, in order. -/
def write_enums (g : Generators) (registry : Registry) : List String :=
  concat_map (fun e => g.gen_enum_item e "types::") registry.enums

/-- Embedding of `write_fnptr_struct_def` (src/struct_gen.rs lines 91-131): one chunk,
the `FnPtr` struct and its impl. -/
def write_fnptr_struct_def : List String :=
  ["\n        #[allow(dead_code, missing_copy_implementations)]\n        #[derive(Clone)]\n        pub struct FnPtr \x7b\n            /// The function pointer that will be used when calling the function.\n            f: *const __gl_imports::raw::c_void,\n            /// True if the pointer points to a real function, false if points to a \x60panic!\x60 fn.\n            is_loaded: bool,\n        \x7d\n\n        impl FnPtr \x7b\n            /// Creates a \x60FnPtr\x60 from a load attempt.\n            fn new(ptr: *const __gl_imports::raw::c_void) -> FnPtr \x7b\n                if ptr.is_null() \x7b\n                    FnPtr \x7b\n                        f: missing_fn_panic as *const __gl_imports::raw::c_void,\n                        is_loaded: false\n                    \x7d\n                \x7d else \x7b\n                    FnPtr \x7b f: ptr, is_loaded: true \x7d\n                \x7d\n            \x7d\n\n            /// Returns \x60true\x60 if the function has been successfully loaded.\n            ///\n            /// If it returns \x60false\x60, calling the corresponding function will fail.\n            #[inline]\n            #[allow(dead_code)]\n            pub fn is_loaded(&self) -> bool \x7b\n                self.is_loaded\n            \x7d\n        \x7d\n    "]

/-- Embedding of `write_panicking_fns` (src/struct_gen.rs lines 136-148): one chunk, the
`missing_fn_panic` sentinel with the API name interpolated into the panic
message. -/
def write_panicking_fns (registry : Registry) : List String :=
  ["#[inline(never)]\n        fn missing_fn_panic() -> ! \x7b\n            panic!(\""
    ++ (registry.api ++ " function was not loaded\")\n        \x7d")]

/-- One field line of the pointer-table struct (src/struct_gen.rs
line 170). -/
def field_line (n : String) : String :=
  "pub " ++ (n ++ ": FnPtr,")

/-- The fallback doc line emitted above a field when the command has an
alias entry (src/struct_gen.rs line 168). -/
def fallbacks_doc_line (v : List String) : String :=
  "/// Fallbacks: " ++ String.intercalate ", " v

/-- Embedding of `write_struct` (src/struct_gen.rs lines 153-192): the `FnPtrs` struct
header, one field per command in declaration order (with a fallback doc
line when the command has aliases), the closing brace, and the outer API
struct. -/
def write_struct (g : Generators) (registry : Registry) : List String :=
  ["\n        #[allow(non_camel_case_types, non_snake_case, dead_code)]\n        #[derive(Clone)]\n        pub struct "
    ++ (g.gen_struct_name registry.api ++ "FnPtrs \x7b")]
  ++ concat_map (fun cmd =>
      (match lookup registry.aliases cmd.proto.ident with
       | some v => [fallbacks_doc_line v]
       | none => [])
      ++ [field_line cmd.proto.ident]) registry.cmds
  ++ ["\x7d", "",
      "\n        #[allow(non_camel_case_types, non_snake_case, dead_code)]\n        #[derive(Clone)]\n        pub struct "
        ++ (g.gen_struct_name registry.api
          ++ (" \x7b\n            pub ptrs: "
            ++ (g.gen_struct_name registry.api
              ++ "FnPtrs,\n            _priv: (),\n        \x7d\n        ")))]

/-- The fallback list text interpolated into a load line
(src/struct_gen.rs lines 242-249). -/
def fallbacks_text (g : Generators) (registry : Registry) (cmd : Cmd) : String :=
  match lookup registry.aliases cmd.proto.ident with
  | some fbs =>
    String.intercalate ", "
      (fbs.map (fun name => "\"" ++ (g.gen_symbol_name registry.api name ++ "\"")))
  | none => ""

/-- One load line of the generated `load_with_metaloadfn` body
(src/struct_gen.rs lines 237-250). -/
def load_line (g : Generators) (registry : Registry) (cmd : Cmd) : String :=
  cmd.proto.ident ++ (": FnPtr::new(metaloadfn(\""
    ++ (g.gen_symbol_name registry.api cmd.proto.ident
      ++ ("\", &[" ++ (fallbacks_text g registry cmd ++ "])),"))))

/-- The header chunk of `write_impl` (src/struct_gen.rs lines 199-234):
`load_with`, the generated `do_metaloadfn`, and the opening of
`load_with_metaloadfn`. -/
def impl_header_chunk (api : String) : String :=
  "impl " ++ (api ++ (" \x7b\n            /// Load each OpenGL symbol using a custom load function. This allows for the\n            /// use of functions like \x60glfwGetProcAddress\x60 or \x60SDL_GL_GetProcAddress\x60.\n            ///\n            /// ~~~ignore\n            /// let gl = Gl::load_with(|s| glfw.get_proc_address(s));\n            /// ~~~\n            #[allow(dead_code, unused_variables)]\n            pub fn load_with<F>(mut loadfn: F) -> "
    ++ (api ++ (" where F: FnMut(&\x27static str) -> *const __gl_imports::raw::c_void \x7b\n                #[inline(never)]\n                fn do_metaloadfn(loadfn: &mut FnMut(&\x27static str) -> *const __gl_imports::raw::c_void,\n                                 symbol: &\x27static str,\n                                 symbols: &[&\x27static str])\n                                 -> *const __gl_imports::raw::c_void \x7b\n                    let mut ptr = loadfn(symbol);\n                    if ptr.is_null() \x7b\n                        for &sym in symbols \x7b\n                            ptr = loadfn(sym);\n                            if !ptr.is_null() \x7b break; \x7d\n                        \x7d\n                    \x7d\n                    ptr\n                \x7d\n                let mut metaloadfn = |symbol: &\x27static str, symbols: &[&\x27static str]| \x7b\n                    do_metaloadfn(&mut loadfn, symbol, symbols)\n                \x7d;\n                "
      ++ (api ++ ("::load_with_metaloadfn(&mut metaloadfn)\n            \x7d\n\n            #[inline(never)]\n            fn load_with_metaloadfn(metaloadfn: &mut FnMut(&\x27static str, &[&\x27static str]) -> *const __gl_imports::raw::c_void) -> "
        ++ (api ++ (" \x7b\n                \n                "
          ++ (api ++ (" \x7b\n                    ptrs: "
            ++ (api ++ "FnPtrs \x7b")))))))))))

/-- One generated wrapper-method chunk (src/struct_gen.rs lines 263-276):
renders the three projections of `gen_parameters` into the public
parameter list, the transmute cast signature, and the forwarded call. -/
def method_chunk (registry : Registry) (cmd : Cmd) : String :=
  "#[allow(non_snake_case, unused_variables, dead_code)]\n            #[inline] pub unsafe fn "
    ++ (cmd.proto.ident ++ ("(&self, "
      ++ (String.intercalate ", " ((gen_parameters cmd registry true true).getD [])
        ++ (") -> "
          ++ (cmd.proto.ty ++ (" \x7b __gl_imports::mem::transmute::<_, extern \"system\" fn("
            ++ (String.intercalate ", " ((gen_parameters cmd registry false true).getD [])
              ++ (") -> "
                ++ (cmd.proto.ty ++ (">(self.ptrs."
                  ++ (cmd.proto.ident ++ (".f)("
                    ++ (String.intercalate ", " ((gen_parameters cmd registry true false).getD [])
                      ++ ") \x7d")))))))))))))

/-- Embedding of `write_impl` (src/struct_gen.rs lines 195-285): the loader header, one
load line per command, the closers, one wrapper method per command, and the
`Send` impl. -/
def write_impl (g : Generators) (registry : Registry) : List String :=
  [impl_header_chunk (g.gen_struct_name registry.api)]
  ++ concat_map (fun cmd => [load_line g registry cmd]) registry.cmds
  ++ ["\x7d,", "_priv: ()", "\x7d\n        \x7d"]
  ++ concat_map (fun cmd => [method_chunk registry cmd]) registry.cmds
  ++ ["\x7d\n\n        unsafe impl __gl_imports::Send for "
      ++ (g.gen_struct_name registry.api ++ " \x7b\x7d")]

/-- The facade `StructGenerator::write` (src/struct_gen.rs lines 24-38):
the eight stages in source order, concatenated into the output stream. -/
def StructGenerator_write (g : Generators) (registry : Registry)
    (setOrder : List String → List String) : List String :=
  write_header
    ++ write_type_aliases g registry
    ++ write_enums g registry
    ++ write_fnptr_struct_def
    ++ write_panicking_fns registry
    ++ write_struct g registry
    ++ write_impl g registry
    ++ write_enum_groups registry setOrder

/-- The byte stream produced by the `writeln!` calls: each chunk followed
by a newline. -/
def write_output (chunks : List String) : String :=
  chunks.foldr (fun c acc => c ++ ("\n" ++ acc)) ""

/-- A command with the given identifier, unit return type and no
parameters. -/
def mkCmd (n : String) : Cmd :=
  { proto := { ident := n, ty := "()", group := none }, params := [] }

/-- A concrete collaborator instance for witnesses. -/
def collab0 : Generators :=
  { gen_types := fun _ => ["        pub type GLenum = u32;"]
    gen_enum_item := fun e ns =>
      ["pub const " ++ e.ident ++ ": " ++ ns ++ "GLenum = "
        ++ toString e.value ++ ";"]
    gen_struct_name := fun _ => "Gl"
    gen_symbol_name := fun _ n => "gl" ++ n }

/-- A registry with two commands, the first of which has one fallback. -/
def R9 : Registry :=
  { api := "gl", enums := [], cmds := [mkCmd "Foo", mkCmd "Bar"]
    aliases := [("Foo", ["FooEXT"])], groups := [] }

/-- The group used by the claim C6 witness. -/
def grpFoo : Group :=
  { ident := "Foo", enums_type := none, enums := [] }

/-- A parameter binding declaring membership in group `Foo`. -/
def bFoo : Binding :=
  { ident := "mode", ty := "types::GLenum", group := some "Foo" }

/-- A one-parameter command whose parameter references group `Foo`. -/
def cmdFoo : Cmd :=
  { proto := { ident := "Frob", ty := "()", group := none }, params := [bFoo] }

/-- The registry for the C6/C7 witnesses: one command and one group. -/
def R6 : Registry :=
  { api := "gl", enums := [], cmds := [cmdFoo], aliases := []
    groups := [("Foo", grpFoo)] }

/-!  Iteration orders, concrete registries and text search used by the
determinism and emission-order theorems. -/

/-- A legitimate iteration order for the per-group hash set: any
permutation of the set's contents. -/
def valid_set_order (o : List String → List String) : Prop :=
  ∀ l : List String, (o l).Perm l

/-- The identity iteration order. -/
def ord_id : List String → List String := fun l => l

/-- The reversed iteration order (equally legitimate for a hash set). -/
def ord_rev : List String → List String := fun l => l.reverse

/-- The registry for the C4 counterexample: one group with two members
present in the enum set, so its `Debug` match arms have two possible
orders. -/
def R4 : Registry :=
  { api := "gl"
    enums := [{ ident := "A", value := 1 }, { ident := "B", value := 2 }]
    cmds := [], aliases := []
    groups := [("G", { ident := "G", enums_type := none, enums := ["A", "B"] })] }

/-- Substring test on character lists, by structural recursion: `pat`
occurs in the list iff it is a prefix of some suffix. -/
def contains_sub (pat : List Char) : List Char → Bool
  | [] => pat.isPrefixOf []
  | c :: rest => pat.isPrefixOf (c :: rest) || contains_sub pat rest

/-- Substring test on strings. -/
def contains_substr (s pat : String) : Bool :=
  contains_sub pat.data s.data

/-- Index of the first chunk containing `pat` (the chunk list's length if
none does). -/
def first_idx_with (pat : String) (chunks : List String) : Nat :=
  chunks.findIdx (fun c => contains_substr c pat)

theorem gen_params_list_map (registry : Registry) (wi wt : Bool)
    (l : List Binding) (f : Binding → String)
    (h : ∀ b ∈ l, gen_binding registry wi wt b = some (f b)) :
    gen_params_list registry wi wt l = some (l.map f) := by
  induction l with
  | nil => rfl
  | cons b rest ih =>
    have hb := h b (by simp)
    have hrest := ih (fun x hx => h x (by simp [hx]))
    simp [gen_params_list, hb, hrest]

theorem gen_params_list_none (registry : Registry) (l : List Binding)
    (hne : l ≠ []) : gen_params_list registry false false l = none := by
  cases l with
  | nil => exact absurd rfl hne
  | cons b rest => simp [gen_params_list, gen_binding]

theorem metaload_fallbacks_queries (loadfn : String → Option Nat)
    (syms : List String) :
    (metaload_fallbacks loadfn syms).snd = spec_resolution_queries loadfn syms := by
  induction syms with
  | nil => rfl
  | cons sym rest ih =>
    cases h : loadfn sym with
    | some p => simp [metaload_fallbacks, spec_resolution_queries, h]
    | none => simp [metaload_fallbacks, spec_resolution_queries, h, ih]

theorem metaload_fallbacks_result (loadfn : String → Option Nat)
    (syms : List String) :
    (metaload_fallbacks loadfn syms).fst = syms.findSome? loadfn := by
  induction syms with
  | nil => rfl
  | cons sym rest ih =>
    cases h : loadfn sym with
    | some p => simp [metaload_fallbacks, List.findSome?, h]
    | none => simp [metaload_fallbacks, List.findSome?, h, ih]

theorem spec_resolution_queries_sublist (loadfn : String → Option Nat)
    (l : List String) : (spec_resolution_queries loadfn l).Sublist l := by
  induction l with
  | nil => simp [spec_resolution_queries]
  | cons n rest ih =>
    by_cases h : (loadfn n).isSome
    · simp [spec_resolution_queries, h]
    · simpa [spec_resolution_queries, h] using ih.cons₂ n

theorem do_metaloadfn_queries (loadfn : String → Option Nat) (symbol : String)
    (symbols : List String) :
    (do_metaloadfn loadfn symbol symbols).snd
      = spec_resolution_queries loadfn (symbol :: symbols) := by
  cases h : loadfn symbol with
  | some p => simp [do_metaloadfn, spec_resolution_queries, h]
  | none =>
    simp [do_metaloadfn, spec_resolution_queries, h, metaload_fallbacks_queries]

theorem do_metaloadfn_result (loadfn : String → Option Nat) (symbol : String)
    (symbols : List String) :
    (do_metaloadfn loadfn symbol symbols).fst
      = (symbol :: symbols).findSome? loadfn := by
  cases h : loadfn symbol with
  | some p => simp [do_metaloadfn, List.findSome?, h]
  | none => simp [do_metaloadfn, List.findSome?, h, metaload_fallbacks_result]

/-- Claim C1, counterexample to the claim as stated.  The claim asserts
that for every command "each symbol name in this sequence is attempted at
most once" and that "the loader never retries a failed resolve call".
Take a command whose alias entry names the command itself (the spec's data
model only requires alias targets to be valid command identifiers), so the
resolution sequence is `["glFoo"]` after the primary name `"glFoo"`, and a
resolver failing every name: the generated loader queries `"glFoo"` twice,
re-issuing a resolve call that already failed. -/
theorem C1_counterexample :
    ((do_metaloadfn (fun _ => none) "glFoo" ["glFoo"]).snd).count "glFoo" = 2 := by
  decide

/-- Claim C1 (amended): for every command, symbol resolution attempts the
primary symbol name first and, only if it resolves to null, tries each
fallback name in declared order, stopping at the first non-null result
(the ghost query log equals the spec-side `spec_resolution_queries` over
`primary :: fallbacks`, and the result is the first non-null resolution);
the resolver is never queried for names after the first success, and each
*position* of the sequence is attempted at most once — hence each symbol
*name* at most once whenever the primary and fallback names are pairwise
distinct. -/
theorem C1_resolution_order (loadfn : String → Option Nat) (symbol : String)
    (symbols : List String) :
    (do_metaloadfn loadfn symbol symbols).snd
        = spec_resolution_queries loadfn (symbol :: symbols)
      ∧ (do_metaloadfn loadfn symbol symbols).fst
        = (symbol :: symbols).findSome? loadfn
      ∧ ((symbol :: symbols).Nodup →
          ((do_metaloadfn loadfn symbol symbols).snd).Nodup) := by
  refine ⟨do_metaloadfn_queries loadfn symbol symbols,
    do_metaloadfn_result loadfn symbol symbols, ?_⟩
  intro hnd
  rw [do_metaloadfn_queries loadfn symbol symbols]
  exact hnd.sublist (spec_resolution_queries_sublist loadfn (symbol :: symbols))

/-- Claim C1, witness: with fallback list `[glFooEXT, glFooARB]` and
`loadf1`, the loader queries exactly `glFoo, glFooEXT, glFooARB` (no name
beyond the first success, none twice) and the entry is `loaded = true`
bound to the second fallback's address. -/
theorem C1_resolution_order_witness :
    (do_metaloadfn loadf1 "glFoo" ["glFooEXT", "glFooARB"]).snd
        = ["glFoo", "glFooEXT", "glFooARB"]
      ∧ FnPtr.new (do_metaloadfn loadf1 "glFoo" ["glFooEXT", "glFooARB"]).fst
        = { f := FnAddr.addr 42, is_loaded := true }
      ∧ ((do_metaloadfn loadf1 "glFoo" ["glFooEXT", "glFooARB"]).snd).Nodup :=
  ⟨by decide, by decide,
    (C1_resolution_order loadf1 "glFoo" ["glFooEXT", "glFooARB"]).2.2 (by decide)⟩

/-- Claim C3: a command whose primary symbol and every fallback fail to
resolve gets a table entry with `loaded = false`, whose `is_loaded()`
query returns `false` and whose stored address is the panicking sentinel,
so that an invocation panics fatally instead of returning an address;
conversely a non-null resolution yields `loaded = true` with the resolved
address stored. -/
theorem C3_total_failure (api : String) (loadfn : String → Option Nat)
    (symbol : String) (symbols : List String) (p : Nat) :
    ((∀ n ∈ symbol :: symbols, loadfn n = none) →
        (FnPtr.new (do_metaloadfn loadfn symbol symbols).fst).is_loaded = false
        ∧ (FnPtr.new (do_metaloadfn loadfn symbol symbols).fst).f
          = FnAddr.missing_fn_panic
        ∧ invoke_fnptr api (FnPtr.new (do_metaloadfn loadfn symbol symbols).fst)
          = Except.error (api ++ " function was not loaded"))
      ∧ ((do_metaloadfn loadfn symbol symbols).fst = some p →
          FnPtr.new (do_metaloadfn loadfn symbol symbols).fst
            = { f := FnAddr.addr p, is_loaded := true }) := by
  constructor
  · intro hall
    have hres : (do_metaloadfn loadfn symbol symbols).fst = none := by
      rw [do_metaloadfn_result loadfn symbol symbols]
      exact List.findSome?_eq_none_iff.mpr hall
    rw [hres]
    exact ⟨rfl, rfl, rfl⟩
  · intro hres
    rw [hres]
    rfl

/-- Claim C3, witness: with a resolver failing every name, the entry for a
command with primary `glFoo` and fallback `glFooEXT` is not loaded, holds
the sentinel, and invoking it fails with the generated panic message. -/
theorem C3_total_failure_witness :
    (FnPtr.new (do_metaloadfn (fun _ => none) "glFoo" ["glFooEXT"]).fst).is_loaded
        = false
      ∧ (FnPtr.new (do_metaloadfn (fun _ => none) "glFoo" ["glFooEXT"]).fst).f
        = FnAddr.missing_fn_panic
      ∧ invoke_fnptr "gl"
          (FnPtr.new (do_metaloadfn (fun _ => none) "glFoo" ["glFooEXT"]).fst)
        = Except.error ("gl" ++ " function was not loaded") :=
  (C3_total_failure "gl" (fun _ => none) "glFoo" ["glFooEXT"] 0).1
    (fun _ _ => rfl)

theorem group_const_chunks_spec (enumSet : List String) (g : String)
    (l : List String) : ∀ seen1 seen2 : List String,
    (∀ x, x ∈ enumSet → (x ∈ seen1 ↔ x ∈ seen2)) →
    group_const_chunks enumSet g seen1 l
      = (dedup_first_from seen2
            (l.filter (fun n => decide (n ∈ enumSet)))).map (const_line g) := by
  induction l with
  | nil => intro _ _ _; rfl
  | cons n rest ih =>
    intro s1 s2 hag
    simp only [group_const_chunks, List.filter_cons]
    by_cases hp : n ∈ enumSet
    · rw [if_pos (decide_eq_true hp)]
      by_cases hs : n ∈ s1
      · have hs2 : n ∈ s2 := (hag n hp).mp hs
        have hag' : ∀ x, x ∈ enumSet → (x ∈ n :: s1 ↔ x ∈ s2) := by
          intro x hx
          rw [List.mem_cons]
          constructor
          · rintro (rfl | hx1)
            · exact hs2
            · exact (hag x hx).mp hx1
          · intro hx2
            exact Or.inr ((hag x hx).mpr hx2)
        rw [if_neg (by simp [hs])]
        simp only [dedup_first_from]
        rw [if_pos hs2]
        exact ih (n :: s1) s2 hag'
      · have hs2 : n ∉ s2 := fun h => hs ((hag n hp).mpr h)
        have hag' : ∀ x, x ∈ enumSet → (x ∈ n :: s1 ↔ x ∈ n :: s2) := by
          intro x hx
          rw [List.mem_cons, List.mem_cons, hag x hx]
        rw [if_pos ⟨hs, hp⟩]
        simp only [dedup_first_from]
        rw [if_neg hs2, List.map_cons]
        exact congrArg (const_line g n :: ·) (ih (n :: s1) (n :: s2) hag')
    · have hag' : ∀ x, x ∈ enumSet → (x ∈ n :: s1 ↔ x ∈ s2) := by
        intro x hx
        have hxn : x ≠ n := fun he => hp (he ▸ hx)
        rw [List.mem_cons]
        constructor
        · rintro (rfl | hx1)
          · exact absurd hx hp
          · exact (hag x hx).mp hx1
        · intro hx2
          exact Or.inr ((hag x hx).mpr hx2)
      rw [if_neg (show ¬(n ∉ s1 ∧ n ∈ enumSet) from fun hc => hp hc.2),
        if_neg (show ¬(decide (n ∈ enumSet) = true) by simp [hp])]
      exact ih (n :: s1) s2 hag'

/-- Claim C2: for every group, the emitted constant lines are exactly the
group's declared member list filtered to identifiers present in the
registry's enum set, keeping only the first occurrence of each identifier
and preserving declared order, rendered as constant lines; duplicates and
absent identifiers are silently skipped (the emitter is total, no error
path exists). -/
theorem C2_group_constants (registry : Registry) (group : Group) :
    group_const_chunks (enum_idents registry) group.ident [] group.enums
      = (dedup_first (group.enums.filter
            (fun n => decide (n ∈ enum_idents registry)))).map
          (const_line group.ident) :=
  group_const_chunks_spec (enum_idents registry) group.ident group.enums [] []
    (fun _ _ => Iff.rfl)

/-- Claim C5: the generated textual-debug rendering is total and renders
`<GroupName>(<ConstantName>)` for any value equal to the wrapped raw value
of some entry of the group constant set (the matching constant being the
first structural match in arm order), and `<GroupName>(<raw-value>)` for
any value matching no entry. -/
theorem C5_debug_rendering (registry : Registry) (iter : List String)
    (group_name : String) (v : Nat) :
    ((∃ a ∈ debug_arms registry iter, a.snd = v) →
        ∃ a ∈ debug_arms registry iter, a.snd = v ∧
          generated_debug_fmt group_name (debug_arms registry iter) v
            = group_name ++ "(" ++ a.fst ++ ")")
      ∧ ((∀ a ∈ debug_arms registry iter, a.snd ≠ v) →
        generated_debug_fmt group_name (debug_arms registry iter) v
          = group_name ++ "(" ++ toString v ++ ")") := by
  constructor
  · intro hex
    cases hfind : (debug_arms registry iter).find? (fun a => a.snd == v) with
    | some a =>
      have hav : a.snd = v := by simpa using List.find?_some hfind
      refine ⟨a, List.mem_of_find?_eq_some hfind, hav, ?_⟩
      simp [generated_debug_fmt, hfind]
    | none =>
      obtain ⟨a, ha, hav⟩ := hex
      have := List.find?_eq_none.mp hfind a ha
      exact absurd (by simp [hav]) this
  · intro hall
    cases hfind : (debug_arms registry iter).find? (fun a => a.snd == v) with
    | some a =>
      have hav : a.snd = v := by simpa using List.find?_some hfind
      exact absurd hav (hall a (List.mem_of_find?_eq_some hfind))
    | none => simp [generated_debug_fmt, hfind]

/-- Claim C5, witness: for the plain group with constants `A = 1`, `B = 2`,
rendering 1 yields `Group(A)`, rendering 2 yields `Group(B)`, and rendering
99 yields `Group(99)`. -/
theorem C5_debug_rendering_witness :
    generated_debug_fmt "Group" (debug_arms R5 ["A", "B"]) 99 = "Group(99)"
      ∧ (∃ a ∈ debug_arms R5 ["A", "B"], a.snd = 1 ∧
          generated_debug_fmt "Group" (debug_arms R5 ["A", "B"]) 1
            = "Group(" ++ a.fst ++ ")")
      ∧ generated_debug_fmt "Group" (debug_arms R5 ["A", "B"]) 1 = "Group(A)"
      ∧ generated_debug_fmt "Group" (debug_arms R5 ["A", "B"]) 2 = "Group(B)" :=
  ⟨(C5_debug_rendering R5 ["A", "B"] "Group" 99).2 (by decide),
   (C5_debug_rendering R5 ["A", "B"] "Group" 1).1 ⟨("A", 1), by decide, rfl⟩,
   by decide, by decide⟩

theorem str_ne_of_getElem {s t : String} (k : Nat)
    (h : s.data[k]? ≠ t.data[k]?) : s ≠ t :=
  fun he => h (he ▸ rfl)

theorem probe_lit (x y : String) (k : Nat) (c : Char)
    (hx : x.data[k]? = some c) (hk : k < x.data.length) :
    (x ++ y).data[k]? = some c := by
  rw [String.data_append, List.getElem?_append_left hk, hx]

theorem bitmask_probe0 (g : String) :
    (impl_bitmask_traits_line g).data[0]? = some 'i' :=
  probe_lit "impl_enum_bitmask_traits!(" (g ++ ");") 0 'i' (by decide) (by decide)

theorem bitmask_probe4 (g : String) :
    (impl_bitmask_traits_line g).data[4]? = some '_' :=
  probe_lit "impl_enum_bitmask_traits!(" (g ++ ");") 4 '_' (by decide) (by decide)

theorem bitmask_probe10 (g : String) :
    (impl_bitmask_traits_line g).data[10]? = some 'b' :=
  probe_lit "impl_enum_bitmask_traits!(" (g ++ ");") 10 'b' (by decide) (by decide)

theorem mem_group_const_chunks (enumSet : List String) (g : String)
    (l : List String) : ∀ (seen : List String) (c : String),
    c ∈ group_const_chunks enumSet g seen l → ∃ n, c = const_line g n := by
  induction l with
  | nil =>
    intro seen c hc
    simp [group_const_chunks] at hc
  | cons n rest ih =>
    intro seen c hc
    simp only [group_const_chunks] at hc
    by_cases h : n ∉ seen ∧ n ∈ enumSet
    · rw [if_pos h] at hc
      rcases List.mem_cons.mp hc with rfl | hc'
      · exact ⟨n, rfl⟩
      · exact ih (n :: seen) c hc'
    · rw [if_neg h] at hc
      exact ih (n :: seen) c hc

theorem const_line_probe0 (g n : String) :
    (const_line g n).data[0]? = some ' ' :=
  probe_lit "    pub const " _ 0 ' ' (by decide) (by decide)

theorem debug_arm_line_probe0 (g n : String) :
    (debug_arm_line g n).data[0]? = some ' ' :=
  probe_lit "            " _ 0 ' ' (by decide) (by decide)

theorem debug_default_line_probe0 (g : String) :
    (debug_default_line g).data[0]? = some ' ' :=
  probe_lit "            _ => write!(fmt, \"" _ 0 ' ' (by decide) (by decide)

theorem impl_traits_line_probe10 (g : String) :
    (impl_traits_line g).data[10]? = some 't' :=
  probe_lit "impl_enum_traits!(" _ 10 't' (by decide) (by decide)

theorem bitmask_line_not_mem (enumSet : List String)
    (setOrder : List String → List String) (group : Group)
    (hb : ¬ group.enums_type = some "bitmask") :
    impl_bitmask_traits_line group.ident ∉ group_chunks enumSet setOrder group := by
  intro hmem
  simp only [group_chunks] at hmem
  rw [if_neg hb, if_neg hb, List.append_nil, List.append_nil] at hmem
  rcases List.mem_append.mp hmem with hmem | hmem
  rotate_left
  · -- the seven-chunk tail after the match arms
    simp only [List.mem_cons, List.not_mem_nil, or_false] at hmem
    rcases hmem with h | h | h | h | h | h | h
    · refine absurd h (str_ne_of_getElem 0 ?_)
      rw [bitmask_probe0 group.ident, debug_default_line_probe0 group.ident]
      decide
    · refine absurd h (str_ne_of_getElem 0 ?_)
      rw [bitmask_probe0 group.ident]
      decide
    · refine absurd h (str_ne_of_getElem 0 ?_)
      rw [bitmask_probe0 group.ident]
      decide
    · refine absurd h (str_ne_of_getElem 0 ?_)
      rw [bitmask_probe0 group.ident]
      decide
    · refine absurd h (str_ne_of_getElem 0 ?_)
      rw [bitmask_probe0 group.ident]
      decide
    · refine absurd h (str_ne_of_getElem 10 ?_)
      rw [bitmask_probe10 group.ident, impl_traits_line_probe10 group.ident]
      decide
    · refine absurd h (str_ne_of_getElem 0 ?_)
      rw [bitmask_probe0 group.ident]
      decide
  rcases List.mem_append.mp hmem with hmem | hmem
  rotate_left
  · -- the debug match arms
    obtain ⟨a, _, heq⟩ := List.mem_map.mp hmem
    refine absurd heq.symm (str_ne_of_getElem 0 ?_)
    rw [bitmask_probe0 group.ident, debug_arm_line_probe0 group.ident a]
    decide
  rcases List.mem_append.mp hmem with hmem | hmem
  rotate_left
  · -- the five chunks between the constants and the match arms
    simp only [List.mem_cons, List.not_mem_nil, or_false] at hmem
    rcases hmem with h | h | h | h | h
    · refine absurd h (str_ne_of_getElem 0 ?_)
      rw [bitmask_probe0 group.ident]
      decide
    · refine absurd h (str_ne_of_getElem 0 ?_)
      rw [bitmask_probe0 group.ident]
      decide
    · refine absurd h (str_ne_of_getElem 4 ?_)
      rw [bitmask_probe4 group.ident,
        probe_lit "impl ::std::fmt::Debug for " _ 4 ' ' (by decide) (by decide)]
      decide
    · refine absurd h (str_ne_of_getElem 0 ?_)
      rw [bitmask_probe0 group.ident]
      decide
    · refine absurd h (str_ne_of_getElem 0 ?_)
      rw [bitmask_probe0 group.ident]
      decide
  rcases List.mem_append.mp hmem with hmem | hmem
  rotate_left
  · -- the member-constant lines
    obtain ⟨n, heq⟩ :=
      mem_group_const_chunks enumSet group.ident group.enums [] _ hmem
    refine absurd heq (str_ne_of_getElem 0 ?_)
    rw [bitmask_probe0 group.ident, const_line_probe0 group.ident n]
    decide
  · -- the five leading chunks
    simp only [List.mem_cons, List.not_mem_nil, or_false] at hmem
    rcases hmem with h | h | h | h | h
    · refine absurd h (str_ne_of_getElem 0 ?_)
      rw [bitmask_probe0 group.ident]
      decide
    · refine absurd h (str_ne_of_getElem 0 ?_)
      rw [bitmask_probe0 group.ident]
      decide
    · refine absurd h (str_ne_of_getElem 0 ?_)
      rw [bitmask_probe0 group.ident,
        probe_lit "pub struct " _ 0 'p' (by decide) (by decide)]
      decide
    · refine absurd h (str_ne_of_getElem 0 ?_)
      rw [bitmask_probe0 group.ident]
      decide
    · refine absurd h (str_ne_of_getElem 4 ?_)
      rw [bitmask_probe4 group.ident,
        probe_lit "impl " _ 4 ' ' (by decide) (by decide)]
      decide

/-- Claim C8: for every group with flavor `bitmask` the emitter emits the
`Empty` constant with underlying value zero regardless of the declared
member list; the empty-trait hook invocation is emitted for every group
unconditionally; and the bitmask hook invocation is emitted exactly for
groups whose flavor is `bitmask`. -/
theorem C8_bitmask_empty_and_hooks (enumSet : List String)
    (setOrder : List String → List String) (group : Group) :
    (group.enums_type = some "bitmask" →
        empty_const_line group.ident ∈ group_chunks enumSet setOrder group)
      ∧ impl_traits_line group.ident ∈ group_chunks enumSet setOrder group
      ∧ (impl_bitmask_traits_line group.ident ∈ group_chunks enumSet setOrder group
          ↔ group.enums_type = some "bitmask") := by
  refine ⟨?_, ?_, ?_, ?_⟩
  · intro hb
    simp [group_chunks, hb]
  · by_cases hb : group.enums_type = some "bitmask" <;> simp [group_chunks, hb]
  · intro hmem
    by_contra hb
    exact bitmask_line_not_mem enumSet setOrder group hb hmem
  · intro hb
    simp [group_chunks, hb]

/-- Claim C8, witness: a concrete bitmask-flavored group with no zero
member gets the `Empty` constant and both hooks; a plain group gets only
the unconditional hook. -/
theorem C8_bitmask_empty_and_hooks_witness :
    empty_const_line "Mask" ∈ group_chunks ["X"] (fun l => l)
        { ident := "Mask", enums_type := some "bitmask", enums := ["X"] }
      ∧ impl_traits_line "Mask" ∈ group_chunks ["X"] (fun l => l)
        { ident := "Mask", enums_type := some "bitmask", enums := ["X"] }
      ∧ impl_bitmask_traits_line "Mask" ∈ group_chunks ["X"] (fun l => l)
        { ident := "Mask", enums_type := some "bitmask", enums := ["X"] }
      ∧ impl_bitmask_traits_line "Plain" ∉ group_chunks ["X"] (fun l => l)
        { ident := "Plain", enums_type := none, enums := ["X"] } :=
  ⟨(C8_bitmask_empty_and_hooks ["X"] (fun l => l)
      { ident := "Mask", enums_type := some "bitmask", enums := ["X"] }).1 rfl,
   (C8_bitmask_empty_and_hooks ["X"] (fun l => l)
      { ident := "Mask", enums_type := some "bitmask", enums := ["X"] }).2.1,
   (C8_bitmask_empty_and_hooks ["X"] (fun l => l)
      { ident := "Mask", enums_type := some "bitmask", enums := ["X"] }).2.2.mpr rfl,
   fun h =>
     Option.noConfusion
       ((C8_bitmask_empty_and_hooks ["X"] (fun l => l)
          { ident := "Plain", enums_type := none, enums := ["X"] }).2.2.mp h)⟩

theorem field_line_probe0 (n : String) :
    (field_line n).data[0]? = some 'p' :=
  probe_lit "pub " _ 0 'p' (by decide) (by decide)

theorem fallbacks_doc_line_probe0 (v : List String) :
    (fallbacks_doc_line v).data[0]? = some '/' :=
  probe_lit "/// Fallbacks: " _ 0 '/' (by decide) (by decide)

theorem field_line_inj {a b : String} (h : field_line a = field_line b) :
    a = b := by
  have hd := congrArg String.data h
  simp only [field_line, String.data_append] at hd
  exact String.ext (List.append_cancel_right (List.append_cancel_left hd))

theorem opt_probe {s : String} {c : Char} (hpr : s.data[0]? = some c) :
    (s.data[0]? == some 'p') = (c == 'p') := by
  rw [hpr]; rfl

theorem struct_fields_filter_concat (registry : Registry)
    (cmds : List Cmd) :
    (concat_map (fun cmd =>
        (match lookup registry.aliases cmd.proto.ident with
         | some v => [fallbacks_doc_line v]
         | none => [])
        ++ [field_line cmd.proto.ident]) cmds).filter
          (fun c => c.data[0]? == some 'p')
      = cmds.map (fun cmd => field_line cmd.proto.ident) := by
  induction cmds with
  | nil => rfl
  | cons cmd rest ih =>
    simp only [concat_map, List.filter_append, List.map_cons, ih]
    have hfield : ((field_line cmd.proto.ident).data[0]? == some 'p') = true := by
      rw [opt_probe (field_line_probe0 cmd.proto.ident)]
      decide
    cases hl : lookup registry.aliases cmd.proto.ident with
    | some v =>
      have hdoc : ((fallbacks_doc_line v).data[0]? == some 'p') = false := by
        rw [opt_probe (fallbacks_doc_line_probe0 v)]
        decide
      simp [List.filter_cons, hfield, hdoc]
    | none => simp [List.filter_cons, hfield]

theorem struct_fields_count_concat (registry : Registry)
    (cmds : List Cmd) (x : String) :
    (concat_map (fun cmd =>
        (match lookup registry.aliases cmd.proto.ident with
         | some v => [fallbacks_doc_line v]
         | none => [])
        ++ [field_line cmd.proto.ident]) cmds).count (field_line x)
      = (cmds.map (fun cmd => cmd.proto.ident)).count x := by
  induction cmds with
  | nil => rfl
  | cons cmd rest ih =>
    have hbeq : (field_line cmd.proto.ident == field_line x)
        = (cmd.proto.ident == x) := by
      by_cases hxi : cmd.proto.ident = x
      · subst hxi; simp
      · have hne : field_line cmd.proto.ident ≠ field_line x :=
          fun hh => hxi (field_line_inj hh)
        rw [beq_eq_false_iff_ne.mpr hne, beq_eq_false_iff_ne.mpr hxi]
    cases hl : lookup registry.aliases cmd.proto.ident with
    | some v =>
      have hdoc : (fallbacks_doc_line v == field_line x) = false := by
        refine beq_eq_false_iff_ne.mpr (str_ne_of_getElem 0 ?_)
        rw [fallbacks_doc_line_probe0, field_line_probe0]
        decide
      simp only [concat_map, hl, List.map_cons, List.cons_append,
        List.nil_append, List.count_cons, ih, hdoc, hbeq]
      simp
    | none =>
      simp only [concat_map, hl, List.map_cons, List.cons_append,
        List.nil_append, List.count_cons, ih, hbeq]

theorem struct_fields_count (g : Generators) (registry : Registry) (x : String) :
    (write_struct g registry).count (field_line x)
      = (registry.cmds.map (fun cmd => cmd.proto.ident)).count x := by
  have h1 : field_line x
      ≠ "\n        #[allow(non_camel_case_types, non_snake_case, dead_code)]\n        #[derive(Clone)]\n        pub struct "
        ++ (g.gen_struct_name registry.api ++ "FnPtrs \x7b") := by
    refine str_ne_of_getElem 0 ?_
    rw [field_line_probe0,
      probe_lit "\n        #[allow(non_camel_case_types, non_snake_case, dead_code)]\n        #[derive(Clone)]\n        pub struct " _ 0 '\n' (by decide) (by decide)]
    decide
  have h2 : field_line x ≠ "\x7d" := by
    refine str_ne_of_getElem 0 ?_
    rw [field_line_probe0]
    decide
  have h3 : field_line x ≠ "" := by
    refine str_ne_of_getElem 0 ?_
    rw [field_line_probe0]
    decide
  have h4 : field_line x
      ≠ "\n        #[allow(non_camel_case_types, non_snake_case, dead_code)]\n        #[derive(Clone)]\n        pub struct "
        ++ (g.gen_struct_name registry.api
          ++ (" \x7b\n            pub ptrs: "
            ++ (g.gen_struct_name registry.api
              ++ "FnPtrs,\n            _priv: (),\n        \x7d\n        "))) := by
    refine str_ne_of_getElem 0 ?_
    rw [field_line_probe0,
      probe_lit "\n        #[allow(non_camel_case_types, non_snake_case, dead_code)]\n        #[derive(Clone)]\n        pub struct " _ 0 '\n' (by decide) (by decide)]
    decide
  unfold write_struct
  simp only [List.count_append]
  rw [struct_fields_count_concat registry]
  simp only [List.count_cons, List.count_singleton,
    beq_eq_false_iff_ne.mpr (Ne.symm h1), beq_eq_false_iff_ne.mpr (Ne.symm h2),
    beq_eq_false_iff_ne.mpr (Ne.symm h3), beq_eq_false_iff_ne.mpr (Ne.symm h4)]
  simp

/-- Claim C9: for a registry with unique command identifiers, the chunks of
the pointer-table struct emission that are field lines are exactly one
`pub <ident>: FnPtr,` field per command, in command declaration order, and
each command's field line occurs exactly once in the whole emission. -/
theorem C9_struct_fields (g : Generators) (registry : Registry)
    (h : (registry.cmds.map (fun cmd => cmd.proto.ident)).Nodup) :
    (write_struct g registry).filter (fun c => c.data[0]? == some 'p')
        = registry.cmds.map (fun cmd => field_line cmd.proto.ident)
      ∧ ∀ cmd ∈ registry.cmds,
          (write_struct g registry).count (field_line cmd.proto.ident) = 1 := by
  constructor
  · have hopen : (("\n        #[allow(non_camel_case_types, non_snake_case, dead_code)]\n        #[derive(Clone)]\n        pub struct "
        ++ (g.gen_struct_name registry.api ++ "FnPtrs \x7b")).data[0]?
          == some 'p') = false := by
      rw [opt_probe (probe_lit "\n        #[allow(non_camel_case_types, non_snake_case, dead_code)]\n        #[derive(Clone)]\n        pub struct " _ 0 '\n' (by decide) (by decide))]
      decide
    have hclose : (("\n        #[allow(non_camel_case_types, non_snake_case, dead_code)]\n        #[derive(Clone)]\n        pub struct "
        ++ (g.gen_struct_name registry.api
          ++ (" \x7b\n            pub ptrs: "
            ++ (g.gen_struct_name registry.api
              ++ "FnPtrs,\n            _priv: (),\n        \x7d\n        ")))).data[0]?
          == some 'p') = false := by
      rw [opt_probe (probe_lit "\n        #[allow(non_camel_case_types, non_snake_case, dead_code)]\n        #[derive(Clone)]\n        pub struct " _ 0 '\n' (by decide) (by decide))]
      decide
    have hbrace : ((("\x7d" : String).data[0]?) == some 'p') = false := by decide
    have hempty : ((("" : String).data[0]?) == some 'p') = false := by decide
    unfold write_struct
    rw [List.filter_append, List.filter_append,
      struct_fields_filter_concat registry]
    simp only [List.filter_cons, List.filter_nil]
    rw [hopen, hclose, hbrace, hempty]
    simp
  · intro cmd hcmd
    rw [struct_fields_count g registry]
    exact List.count_eq_one_of_mem h (List.mem_map_of_mem _ hcmd)

/-- Claim C9, witness: for the two-command registry the field chunks are
the two fields in order and each occurs exactly once. -/
theorem C9_struct_fields_witness :
    (write_struct collab0 R9).filter (fun c => c.data[0]? == some 'p')
        = [field_line "Foo", field_line "Bar"]
      ∧ (write_struct collab0 R9).count (field_line "Foo") = 1
      ∧ (write_struct collab0 R9).count (field_line "Bar") = 1 :=
  ⟨(C9_struct_fields collab0 R9 (by decide)).1,
   (C9_struct_fields collab0 R9 (by decide)).2 (mkCmd "Foo") (by decide),
   (C9_struct_fields collab0 R9 (by decide)).2 (mkCmd "Bar") (by decide)⟩

/-- Claim C6: in all three projection modes `gen_parameters` renders each
parameter from the single per-binding type token `param_ty`; a parameter
whose group reference names a group present in the registry gets the
group's qualified wrapper type name `enums::<Group>` as its type token,
never its raw declared type, while a parameter without a group reference,
or whose referenced group is absent, keeps its raw declared type.  In the
identifier-only projection the rendered token is the identifier (no type
token appears). -/
theorem C6_param_type_substitution (registry : Registry) (cmd : Cmd)
    (b : Binding) (gname : String) (grp : Group) :
    (gen_parameters cmd registry true true
        = some (cmd.params.map (fun p => p.ident ++ ": " ++ param_ty registry p))
      ∧ gen_parameters cmd registry false true
        = some (cmd.params.map (fun p => param_ty registry p))
      ∧ gen_parameters cmd registry true false
        = some (cmd.params.map (fun p => p.ident)))
    ∧ (b.group = some gname → lookup registry.groups gname = some grp →
        param_ty registry b = "enums::" ++ grp.ident)
    ∧ (b.group = none → param_ty registry b = b.ty)
    ∧ (b.group = some gname → lookup registry.groups gname = none →
        param_ty registry b = b.ty) := by
  refine ⟨⟨?_, ?_, ?_⟩, ?_, ?_, ?_⟩
  · exact gen_params_list_map registry true true cmd.params _
      (fun p _ => by simp [gen_binding])
  · exact gen_params_list_map registry false true cmd.params _
      (fun p _ => by simp [gen_binding])
  · exact gen_params_list_map registry true false cmd.params _
      (fun p _ => by simp [gen_binding])
  · intro h1 h2
    simp [param_ty, h1, h2]
  · intro h1
    simp [param_ty, h1]
  · intro h1 h2
    simp [param_ty, h1, h2]

/-- Claim C6, witness: the parameter referencing group `Foo` renders
`mode: enums::Foo`, `enums::Foo`, and `mode` in the three projections, and
its type token is the qualified wrapper name, not the raw type. -/
theorem C6_param_type_substitution_witness :
    param_ty R6 bFoo = "enums::Foo"
      ∧ gen_parameters cmdFoo R6 true true = some ["mode: enums::Foo"]
      ∧ gen_parameters cmdFoo R6 false true = some ["enums::Foo"]
      ∧ gen_parameters cmdFoo R6 true false = some ["mode"] := by
  refine ⟨?_, ?_, ?_, ?_⟩
  · rw [(C6_param_type_substitution R6 cmdFoo bFoo "Foo" grpFoo).2.1 rfl
      (by decide)]
    decide
  · rw [(C6_param_type_substitution R6 cmdFoo bFoo "Foo" grpFoo).1.1]
    decide
  · rw [(C6_param_type_substitution R6 cmdFoo bFoo "Foo" grpFoo).1.2.1]
    decide
  · rw [(C6_param_type_substitution R6 cmdFoo bFoo "Foo" grpFoo).1.2.2]
    decide

/-- Claim C10: `gen_parameters` is total for the three documented flag
modes, returning exactly one rendered string per parameter; for the
undocumented fourth combination (`with_idents = false`, `with_types =
false`) it panics on any command with at least one parameter and returns
the empty list without panicking on a command with no parameters. -/
theorem C10_gen_parameters_totality (registry : Registry) (cmd : Cmd) :
    (∀ wi wt : Bool, (wi || wt) = true →
        ∃ l, gen_parameters cmd registry wi wt = some l
          ∧ l.length = cmd.params.length)
      ∧ gen_parameters cmd registry false false
        = (if cmd.params.isEmpty then some [] else none) := by
  constructor
  · intro wi wt hwt
    cases wi with
    | true =>
      cases wt with
      | true =>
        exact ⟨_, gen_params_list_map registry true true cmd.params
          (fun p => p.ident ++ ": " ++ param_ty registry p)
          (fun p _ => by simp [gen_binding]), by simp⟩
      | false =>
        exact ⟨_, gen_params_list_map registry true false cmd.params
          (fun p => p.ident) (fun p _ => by simp [gen_binding]), by simp⟩
    | false =>
      cases wt with
      | true =>
        exact ⟨_, gen_params_list_map registry false true cmd.params
          (fun p => param_ty registry p)
          (fun p _ => by simp [gen_binding]), by simp⟩
      | false => simp at hwt
  · cases hp : cmd.params with
    | nil => simp [gen_parameters, gen_params_list, hp]
    | cons b rest =>
      simp [gen_parameters, hp,
        gen_params_list_none registry (b :: rest) (by simp)]

/-- Claim C10, witness: on the one-parameter command the fourth flag
combination panics, on a zero-parameter command it returns the empty list,
and the documented identifier-with-type mode returns one string. -/
theorem C10_gen_parameters_totality_witness :
    gen_parameters cmdFoo R6 false false = none
      ∧ gen_parameters (mkCmd "Nop") R6 false false = some []
      ∧ ∃ l, gen_parameters cmdFoo R6 true true = some l
          ∧ l.length = cmdFoo.params.length := by
  refine ⟨?_, ?_, ?_⟩
  · rw [(C10_gen_parameters_totality R6 cmdFoo).2]
    decide
  · rw [(C10_gen_parameters_totality R6 (mkCmd "Nop")).2]
    decide
  · exact (C10_gen_parameters_totality R6 cmdFoo).1 true true rfl

theorem concat_map_perm {α : Type} (f1 f2 : α → List String) (l : List α)
    (h : ∀ x ∈ l, (f1 x).Perm (f2 x)) :
    (concat_map f1 l).Perm (concat_map f2 l) := by
  induction l with
  | nil => exact List.Perm.refl _
  | cons x xs ih =>
    exact (h x (by simp)).append (ih (fun y hy => h y (by simp [hy])))

theorem group_chunks_perm (enumSet : List String)
    (o1 o2 : List String → List String) (h1 : valid_set_order o1)
    (h2 : valid_set_order o2) (group : Group) :
    (group_chunks enumSet o1 group).Perm (group_chunks enumSet o2 group) := by
  unfold group_chunks
  refine List.Perm.append ?_ (List.Perm.refl _)
  refine List.Perm.append ?_ (List.Perm.refl _)
  refine List.Perm.append (List.Perm.refl _) ?_
  exact (((h1 (dedup_first group.enums)).trans
    (h2 (dedup_first group.enums)).symm).filter _).map _

theorem write_enum_groups_perm (registry : Registry)
    (o1 o2 : List String → List String) (h1 : valid_set_order o1)
    (h2 : valid_set_order o2) :
    (write_enum_groups registry o1).Perm (write_enum_groups registry o2) := by
  unfold write_enum_groups
  refine List.Perm.append ?_ (List.Perm.refl _)
  refine List.Perm.append (List.Perm.refl _) ?_
  exact concat_map_perm _ _ registry.groups
    (fun p _ => group_chunks_perm (enum_idents registry) o1 o2 h1 h2 p.snd)

theorem write_output_append (A B : List String) :
    write_output (A ++ B) = write_output A ++ write_output B := by
  induction A with
  | nil =>
    show write_output B = "" ++ write_output B
    exact (String.ext (by simp [String.data_append])).symm
  | cons a l ih =>
    show a ++ ("\n" ++ write_output (l ++ B))
      = (a ++ ("\n" ++ write_output l)) ++ write_output B
    rw [ih, String.append_assoc, String.append_assoc]

theorem string_append_cancel_left {s t₁ t₂ : String} (h : s ++ t₁ = s ++ t₂) :
    t₁ = t₂ := by
  have hd := congrArg String.data h
  simp only [String.data_append] at hd
  exact String.ext (List.append_cancel_left hd)

theorem ne_of_str_eqb {s t : String} (h : (s.data == t.data) = false) :
    s ≠ t := by
  intro he
  subst he
  simp at h

set_option maxRecDepth 100000 in
/-- Claim C4, counterexample to the claim as stated.  The emitter iterates
a freshly seeded `HashSet` for each group's `Debug` match arms
(src/struct_gen.rs line 354), so the arm order is not determined by the
Registry: with the same registry and two legitimate set-iteration orders,
the two runs produce different bytes (the stages before `write_enum_groups`
agree, and the enum-group sections differ). -/
theorem C4_counterexample :
    valid_set_order ord_id ∧ valid_set_order ord_rev
      ∧ write_output (StructGenerator_write collab0 R4 ord_id)
        ≠ write_output (StructGenerator_write collab0 R4 ord_rev) := by
  have hne : write_output (write_enum_groups R4 ord_id)
      ≠ write_output (write_enum_groups R4 ord_rev) :=
    ne_of_str_eqb (by decide)
  refine ⟨fun l => List.Perm.refl l, fun l => l.reverse_perm, fun h => ?_⟩
  unfold StructGenerator_write at h
  rw [write_output_append _ (write_enum_groups R4 ord_id),
    write_output_append _ (write_enum_groups R4 ord_rev)] at h
  exact hne (string_append_cancel_left h)

/-- Claim C4 (amended): generation is a deterministic function of the
Registry, the collaborator functions, and the per-group hash-set iteration
order; for a fixed iteration order the output is byte-identical across
runs, and any two legitimate iteration orders yield outputs that are
permutations of each other as chunk sequences, differing only in the order
of each group's `Debug` match arms.  Because the Rust implementation seeds
each `HashSet` freshly, two runs on the same Registry need not be
byte-identical. -/
theorem C4_determinism (g : Generators) (registry : Registry)
    (o1 o2 : List String → List String) (h1 : valid_set_order o1)
    (h2 : valid_set_order o2) :
    (StructGenerator_write g registry o1).Perm
      (StructGenerator_write g registry o2) := by
  unfold StructGenerator_write
  exact List.Perm.append (List.Perm.refl _)
    (write_enum_groups_perm registry o1 o2 h1 h2)

/-- Claim C4, witness: the two concrete runs of the counterexample are
chunk-permutations of each other. -/
theorem C4_determinism_witness :
    (StructGenerator_write collab0 R4 ord_id).Perm
      (StructGenerator_write collab0 R4 ord_rev) :=
  C4_determinism collab0 R4 ord_id ord_rev (fun l => List.Perm.refl l)
    (fun l => l.reverse_perm)

set_option maxRecDepth 100000 in
/-- Claim C7, counterexample to the claim as stated.  In the facade's
fixed stage order (src/struct_gen.rs lines 28-35) the enum-group wrapper
types are emitted by the *last* stage, `write_enum_groups`, while the
command signatures referencing them are emitted by the earlier
`write_impl` stage: in the concrete registry with one command whose
parameter references group `Foo`, the first chunk containing the reference
`enums::Foo` comes strictly before the first chunk containing the wrapper
definition `pub struct Foo(`. -/
theorem C7_counterexample :
    first_idx_with "enums::Foo" (StructGenerator_write collab0 R6 ord_id)
      < first_idx_with "pub struct Foo("
          (StructGenerator_write collab0 R6 ord_id) := by
  decide

set_option maxRecDepth 100000 in
/-- Claim C7 (amended): the facade emits its stages in the fixed source
order — header, type aliases, flat enums, `FnPtr` definition, panicking
sentinel, pointer-table struct, impl (loader and command signatures), and
finally the enum-group wrapper types — and the output stream preserves
this emission order exactly; the group wrapper type definitions are
therefore emitted textually *after* the command signatures that reference
them (which is valid, since the emitted language resolves items
independently of textual order). -/
theorem C7_emission_order (g : Generators) (registry : Registry)
    (setOrder : List String → List String) :
    StructGenerator_write g registry setOrder
        = write_header ++ write_type_aliases g registry ++ write_enums g registry
          ++ write_fnptr_struct_def ++ write_panicking_fns registry
          ++ write_struct g registry ++ write_impl g registry
          ++ write_enum_groups registry setOrder
      ∧ first_idx_with "enums::Foo" (StructGenerator_write collab0 R6 ord_id)
        < first_idx_with "pub struct Foo("
            (StructGenerator_write collab0 R6 ord_id) := by
  constructor
  · rfl
  · decide

end GlGen
